import Mathlib

/-!
# image_magick_ffi: the progress bridge between ImageMagick and the Dart runtime

A shallow embedding of `src/image_magick_ffi.c`.

The file has four functions of its own (`initDartAPI`, `progressInfoToJsonObject`,
`progressMonitor`, `magickSetProgressMonitorPort`) and calls into three external
libraries: json-c (`json_object_*`), the Dart native API (`Dart_InitializeApiDL`,
`Dart_PostCObject_DL`) and MagickWand (`MagickSetProgressMonitor`), plus the C
allocator.  The external calls are modelled by the definitions of the first
sections, each marked as external; the functions of the repository are translated
statement by statement on top of them.

Conventions: a `const char *` is the list of its bytes; a pointer is an address
with `0` for `NULL`; a C operation whose behaviour is undefined (a read or write
through a null or dangling pointer, a read of an indeterminate value) ends the
run in a `Fault`; the effects on the outside world (messages handed to the Dart
runtime, monitors registered with MagickWand, calls of the runtime initializer)
are recorded in the `World`.
-/

namespace ImageMagickFfi

/-! ## C strings -/

/-- A C string (`const char *`): the bytes before the terminating NUL, each the
value of an `unsigned char`. -/
abbrev CString := List Nat

/-- The bytes of an ASCII string literal of the C source. -/
def ascii (s : String) : CString := s.toList.map Char.toNat

/-! ## json-c (external library)

The part of json-c that `image_magick_ffi.c` calls: the constructors
`json_object_new_object`, `json_object_new_string`, `json_object_new_uint64`,
`json_object_new_int64`, the insertion `json_object_object_add` and the serializer
`json_object_to_json_string_ext`.  Allocation failure inside json-c is outside
the model. -/

/-- External (json-c): a JSON value as json-c holds it.  An integer keeps the
C type it was created from (`json_object_int_type_int64` or `_uint64`); an
object keeps its members in insertion order. -/
inductive json_object where
  | json_type_string (s : CString)
  | json_type_int64 (v : Int)
  | json_type_uint64 (v : Nat)
  | json_type_object (members : List (CString × json_object))

/-- External (json-c): `json_object_new_object()`, the empty object. -/
def json_object_new_object : json_object := json_object.json_type_object []

/-- External (json-c): `json_object_new_string(s)` copies the `strlen(s)` bytes of `s`. -/
def json_object_new_string (s : CString) : json_object := json_object.json_type_string s

/-- The value of a C expression converted to `uint64_t`. -/
def toUInt64 (n : Nat) : Nat := n % 2 ^ 64

/-- The value of a C expression converted to `int64_t` (two's complement). -/
def toInt64 (i : Int) : Int := (i + 2 ^ 63) % 2 ^ 64 - 2 ^ 63

/-- External (json-c): `json_object_new_uint64(uint64_t i)`. -/
def json_object_new_uint64 (i : Nat) : json_object := json_object.json_type_uint64 (toUInt64 i)

/-- External (json-c): `json_object_new_int64(int64_t i)`. -/
def json_object_new_int64 (i : Int) : json_object := json_object.json_type_int64 (toInt64 i)

/-- Replace the value of the member `key`, or append the member when the key is new. -/
def lh_table_put (key : CString) (val : json_object) :
    List (CString × json_object) → List (CString × json_object)
  | [] => [(key, val)]
  | (k, v) :: rest =>
    if k = key then (k, val) :: rest else (k, v) :: lh_table_put key val rest

/-- External (json-c): `json_object_object_add(obj, key, val)`: an existing key
keeps its position and gets the new value, a new key goes last.  json-c requires
`obj` to be an object; the program only ever passes one, and the model leaves any
other value as it is. -/
def json_object_object_add (obj : json_object) (key : CString) (val : json_object) : json_object :=
  match obj with
  | json_object.json_type_object ms => json_object.json_type_object (lh_table_put key val ms)
  | other => other

/-- External (json-c): flag `JSON_C_TO_STRING_SPACED`. -/
def JSON_C_TO_STRING_SPACED : Nat := 1
/-- External (json-c): flag `JSON_C_TO_STRING_PRETTY`. -/
def JSON_C_TO_STRING_PRETTY : Nat := 2
/-- External (json-c): flag `JSON_C_TO_STRING_PRETTY_TAB`. -/
def JSON_C_TO_STRING_PRETTY_TAB : Nat := 8
/-- External (json-c): flag `JSON_C_TO_STRING_NOSLASHESCAPE`. -/
def JSON_C_TO_STRING_NOSLASHESCAPE : Nat := 16

/-- The C test `flags & f` for a one-bit mask `f`. -/
def hasFlag (flags f : Nat) : Bool := (flags / f) % 2 == 1

/-- The decimal digits of `n`, most significant first, in front of `acc`.
The fuel bounds the number of digits. -/
def decimalAux : Nat → Nat → List Nat → List Nat
  | 0, _, acc => acc
  | fuel + 1, n, acc =>
    if n < 10 then (48 + n) :: acc
    else decimalAux fuel (n / 10) ((48 + n % 10) :: acc)

/-- External (libc): what `snprintf` writes for `"%" PRIu64`. -/
def printUInt64 (n : Nat) : List Nat := decimalAux (n + 1) n []

/-- External (libc): what `snprintf` writes for `"%" PRId64`. -/
def printInt64 (i : Int) : List Nat :=
  if i < 0 then 45 :: printUInt64 i.natAbs else printUInt64 i.natAbs

/-- External (json-c): the table `json_hex_chars`. -/
def json_hex_chars : List Nat := ascii "0123456789abcdefABCDEF"

/-- External (json-c): what `json_escape_str` appends for one byte. -/
def json_escape_char (c : Nat) (flags : Nat) : List Nat :=
  if c = 8 then ascii "\\b"
  else if c = 10 then ascii "\\n"
  else if c = 13 then ascii "\\r"
  else if c = 9 then ascii "\\t"
  else if c = 12 then ascii "\\f"
  else if c = 34 then ascii "\\\""
  else if c = 92 then ascii "\\\\"
  else if c = 47 then
    (if hasFlag flags JSON_C_TO_STRING_NOSLASHESCAPE then [c] else ascii "\\/")
  else if c < 32 then
    ascii "\\u00" ++ [json_hex_chars.getD (c / 16) 0, json_hex_chars.getD (c % 16) 0]
  else [c]

/-- External (json-c): `json_escape_str`, byte by byte. -/
def json_escape_str (flags : Nat) : CString → List Nat
  | [] => []
  | c :: rest => json_escape_char c flags ++ json_escape_str flags rest

/-- External (json-c): `indent(pb, level, flags)`. -/
def indent (level flags : Nat) : List Nat :=
  if hasFlag flags JSON_C_TO_STRING_PRETTY then
    if hasFlag flags JSON_C_TO_STRING_PRETTY_TAB then List.replicate level 9
    else List.replicate (level * 2) 32
  else []

mutual
/-- External (json-c): the serializer behind `json_object_to_json_string_ext`,
at nesting depth `level`. -/
def json_object_to_json_string_level (level flags : Nat) : json_object → List Nat
  | json_object.json_type_string s => [34] ++ json_escape_str flags s ++ [34]
  | json_object.json_type_int64 v => printInt64 v
  | json_object.json_type_uint64 v => printUInt64 v
  | json_object.json_type_object ms =>
    [123] ++ json_object_members_to_json_string level flags false ms
      ++ (if hasFlag flags JSON_C_TO_STRING_PRETTY && !ms.isEmpty then
            [10] ++ indent level flags else [])
      ++ (if hasFlag flags JSON_C_TO_STRING_SPACED && !hasFlag flags JSON_C_TO_STRING_PRETTY
            then [32, 125] else [125])
/-- External (json-c): the loop of `json_object_object_to_json_string` over the
members; `had_children` is the loop's flag of the same name. -/
def json_object_members_to_json_string (level flags : Nat) (had_children : Bool) :
    List (CString × json_object) → List Nat
  | [] => []
  | (key, val) :: rest =>
    (if had_children then [44] else [])
      ++ (if hasFlag flags JSON_C_TO_STRING_PRETTY then [10] else [])
      ++ (if hasFlag flags JSON_C_TO_STRING_SPACED && !hasFlag flags JSON_C_TO_STRING_PRETTY
            then [32] else [])
      ++ indent (level + 1) flags
      ++ [34] ++ json_escape_str flags key ++ [34]
      ++ (if hasFlag flags JSON_C_TO_STRING_SPACED then [58, 32] else [58])
      ++ json_object_to_json_string_level (level + 1) flags val
      ++ json_object_members_to_json_string level flags true rest
end

/-- External (json-c): `json_object_to_json_string_ext(obj, flags)`. -/
def json_object_to_json_string_ext (obj : json_object) (flags : Nat) : List Nat :=
  json_object_to_json_string_level 0 flags obj

/-! ## The C heap (external: `malloc`, `free`)

Only two kinds of object are ever allocated by `image_magick_ffi.c`: a cell for
one `intptr_t` (the port capsule) and a `Dart_CObject` message envelope. -/

/-- An address; `0` is the null pointer. -/
abbrev Addr := Nat

/-- External (Dart native API): the enumeration `Dart_CObject_Type`. -/
inductive Dart_CObject_Type where
  | Dart_CObject_kNull
  | Dart_CObject_kBool
  | Dart_CObject_kInt32
  | Dart_CObject_kInt64
  | Dart_CObject_kDouble
  | Dart_CObject_kString
  | Dart_CObject_kArray
  | Dart_CObject_kTypedData
  | Dart_CObject_kExternalTypedData
  | Dart_CObject_kSendPort
  | Dart_CObject_kCapability
  | Dart_CObject_kNativePointer
  | Dart_CObject_kUnsupported
  deriving DecidableEq, Repr

/-- A heap object.  A field that has not been written since `malloc` is `none`
(its value is indeterminate).  `as_string` stands for the text that the pointer
`value.as_string` points to. -/
inductive Obj where
  | intptr (v : Option Int)
  | cobject (type : Option Dart_CObject_Type) (as_string : Option CString)
  deriving DecidableEq, Repr

/-- What can go wrong in the C program: each is undefined behaviour in C. -/
inductive Fault where
  | nullDereference
  | invalidPointer
  | indeterminateValue
  deriving DecidableEq, Repr

/-- The heap: the live objects by address, and `room`, the number of
allocations the allocator can still satisfy. -/
structure Heap where
  objs : List (Addr × Obj)
  room : Nat
  deriving DecidableEq, Repr

/-- The object at an address, if the address is live. -/
def Heap.get (h : Heap) (a : Addr) : Option Obj := h.objs.lookup a

/-- An address above every live address, hence live nowhere and not null. -/
def Heap.fresh (h : Heap) : Addr := (h.objs.map Prod.fst).foldr max 0 + 1

/-- Overwrite the object at a live address. -/
def Heap.set (h : Heap) (a : Addr) (o : Obj) : Heap :=
  { h with objs := h.objs.map (fun e => if e.1 = a then (e.1, o) else e) }

/-- External (libc): `malloc(sizeof *p)`, `init` being the object of that size
with indeterminate content.  Returns the null pointer when the allocator has no
room left, otherwise the address of a new object. -/
def malloc (init : Obj) (h : Heap) : Addr × Heap :=
  if h.room = 0 then (0, h)
  else (h.fresh, { objs := (h.fresh, init) :: h.objs, room := h.room - 1 })

/-- External (libc): `free(p)`.  `free(NULL)` does nothing; freeing an address
that is not live is undefined. -/
def free (a : Addr) (h : Heap) : Except Fault Heap :=
  if a = 0 then .ok h
  else match h.get a with
    | none => .error Fault.invalidPointer
    | some _ => .ok { objs := h.objs.filter (fun e => e.1 != a), room := h.room + 1 }

/-- The C read `*((intptr_t *) p)`. -/
def loadIntptr (p : Addr) (h : Heap) : Except Fault Int :=
  if p = 0 then .error Fault.nullDereference
  else match h.get p with
    | some (Obj.intptr (some v)) => .ok v
    | some (Obj.intptr none) => .error Fault.indeterminateValue
    | _ => .error Fault.invalidPointer

/-- The C write `*p = v` through an `intptr_t *`. -/
def storeIntptr (p : Addr) (v : Int) (h : Heap) : Except Fault Heap :=
  if p = 0 then .error Fault.nullDereference
  else match h.get p with
    | some (Obj.intptr _) => .ok (h.set p (Obj.intptr (some v)))
    | _ => .error Fault.invalidPointer

/-- The C write `message->type = t`. -/
def storeType (p : Addr) (t : Dart_CObject_Type) (h : Heap) : Except Fault Heap :=
  if p = 0 then .error Fault.nullDereference
  else match h.get p with
    | some (Obj.cobject _ s) => .ok (h.set p (Obj.cobject (some t) s))
    | _ => .error Fault.invalidPointer

/-- The C write `message->value.as_string = s`. -/
def storeAsString (p : Addr) (s : CString) (h : Heap) : Except Fault Heap :=
  if p = 0 then .error Fault.nullDereference
  else match h.get p with
    | some (Obj.cobject t _) => .ok (h.set p (Obj.cobject t (some s)))
    | _ => .error Fault.invalidPointer

/-! ## The Dart runtime and MagickWand (external) -/

/-- A message as the Dart runtime receives it: the envelope's tag and, for a
string, its text. -/
structure Dart_CObject where
  type : Dart_CObject_Type
  as_string : CString
  deriving DecidableEq, Repr

/-- External (MagickCore): `MagickBooleanType`. -/
inductive MagickBooleanType where
  | MagickFalse
  | MagickTrue
  deriving DecidableEq, Repr

/-- The functions of this program that are passed as a `MagickProgressMonitor`
function pointer. -/
inductive MagickProgressMonitor where
  | progressMonitor
  deriving DecidableEq, Repr

/-- The state the program acts on: the heap, the monitor registered on each
wand (with its client data), the log of the calls of `Dart_PostCObject_DL`
(port and message, oldest first) and the log of the calls of
`Dart_InitializeApiDL` (the argument of each, oldest first). -/
structure World where
  heap : Heap
  monitors : List (Addr × MagickProgressMonitor × Addr)
  posted : List (Int × Dart_CObject)
  initCalls : List Addr
  deriving DecidableEq, Repr

/-- A run that ended in undefined behaviour: the fault, and the world as it was
when the faulting operation was reached (what had been allocated, registered
and posted until then). -/
structure Crash where
  fault : Fault
  world : World
  deriving DecidableEq, Repr

/-- An operation performed in the world `w`: its result, or the crash in `w`
when it faults. -/
def World.run {α : Type} (w : World) (x : Except Fault α) : Except Crash α :=
  match x with
  | .ok a => .ok a
  | .error f => .error { fault := f, world := w }

/-- External (Dart native API): `Dart_PostCObject_DL(port, message)` reads the
envelope and hands a copy to the runtime's queue of `port`.  Its `bool` result
is discarded by the only caller and is not modelled. -/
def Dart_PostCObject_DL (port : Int) (message : Addr) (w : World) : Except Fault World :=
  if message = 0 then .error Fault.nullDereference
  else match w.heap.get message with
    | some (Obj.cobject (some t) (some s)) =>
      .ok { w with posted := w.posted ++ [(port, { type := t, as_string := s })] }
    | some (Obj.cobject _ _) => .error Fault.indeterminateValue
    | _ => .error Fault.invalidPointer

/-- External (MagickWand): `MagickSetProgressMonitor(wand, monitor, client_data)`
records the monitor and its client data on the wand, replacing an earlier
registration.  The previous monitor it returns is discarded by the only caller.
The wand handle is not inspected: its validity is the caller's contract. -/
def MagickSetProgressMonitor (wand : Addr) (monitor : MagickProgressMonitor)
    (client_data : Addr) (w : World) : World :=
  { w with monitors := (wand, monitor, client_data) :: w.monitors.filter (fun e => e.1 != wand) }

/-! ## The functions of `image_magick_ffi.c` -/

/-- The function `initDartAPI`: `return Dart_InitializeApiDL(data);`.  The
runtime initializer is external and is a parameter: its result for each
argument. -/
def initDartAPI (Dart_InitializeApiDL : Addr → Int) (data : Addr) (w : World) : Int × World :=
  (Dart_InitializeApiDL data, { w with initCalls := w.initCalls ++ [data] })

/-- The function `progressInfoToJsonObject`. -/
def progressInfoToJsonObject (text : CString) (offset : Int) (size : Nat) : json_object :=
  let infoKey := ascii "info"
  let sizeKey := ascii "size"
  let offsetKey := ascii "offset"
  let jobj := json_object_new_object
  let jobj := json_object_object_add jobj infoKey (json_object_new_string text)
  let jobj := json_object_object_add jobj sizeKey (json_object_new_uint64 size)
  let jobj := json_object_object_add jobj offsetKey (json_object_new_int64 offset)
  jobj

/-- The function `progressMonitor`.  `json_object_put(jobj)` releases the JSON
value and has no effect on the modelled state.  Each operation that can fault
runs in the world reached so far. -/
def progressMonitor (text : CString) (offset : Int) (size : Nat) (clientData : Addr)
    (w : World) : Except Crash (MagickBooleanType × World) := do
  let jobj := progressInfoToJsonObject text offset size
  let sendPort ← w.run (loadIntptr clientData w.heap)
  let (message, h) := malloc (Obj.cobject none none) w.heap
  let w := { w with heap := h }
  let h ← w.run (storeType message Dart_CObject_Type.Dart_CObject_kString w.heap)
  let w := { w with heap := h }
  let h ← w.run (storeAsString message
    (json_object_to_json_string_ext jobj JSON_C_TO_STRING_PRETTY) w.heap)
  let w := { w with heap := h }
  let w ← w.run (Dart_PostCObject_DL sendPort message w)
  let h ← w.run (free message w.heap)
  return (MagickBooleanType.MagickTrue, { w with heap := h })

/-- The function `magickSetProgressMonitorPort`.  The store through the pointer
`malloc` returned comes before the registration, as in the source; when it
faults, the crash holds the world before the registration. -/
def magickSetProgressMonitorPort (wand : Addr) (sendPort : Int) (w : World) :
    Except Crash (Addr × World) := do
  let (sendPortPtr, h) := malloc (Obj.intptr none) w.heap
  let w := { w with heap := h }
  let h ← w.run (storeIntptr sendPortPtr sendPort w.heap)
  let w := MagickSetProgressMonitor wand MagickProgressMonitor.progressMonitor sendPortPtr
    { w with heap := h }
  return (sendPortPtr, w)

/-! ## The library calling back -/

/-- One progress tick: the arguments MagickCore passes to the monitor. -/
structure Tick where
  text : CString
  offset : Int
  size : Nat
  deriving DecidableEq, Repr

/-- MagickCore invoking the monitor once per tick with the client data
`clientData`, in order; a fault stops the run. -/
def runTicks (clientData : Addr) : List Tick → World → Except Crash World
  | [], w => .ok w
  | t :: rest, w =>
    match progressMonitor t.text t.offset t.size clientData w with
    | .error e => .error e
    | .ok (_, w1) => runTicks clientData rest w1

/-- The text `progressMonitor` renders for a tick. -/
def renderedText (t : Tick) : CString :=
  json_object_to_json_string_ext (progressInfoToJsonObject t.text t.offset t.size)
    JSON_C_TO_STRING_PRETTY

/-- The empty world with room for `n` allocations. -/
def World.empty (n : Nat) : World :=
  { heap := { objs := [], room := n }, monitors := [], posted := [], initCalls := [] }

/-! ## Sample worlds -/

/-- A world whose only heap object is a port cell at address 1 holding `p`,
with room for `n` more allocations. -/
def World.withCell (p : Int) (n : Nat) : World :=
  { heap := { objs := [(1, Obj.intptr (some p))], room := n },
    monitors := [], posted := [], initCalls := [] }

/-- The world after `magickSetProgressMonitorPort 7 42` in the empty world with
room for two allocations. -/
def World.registered : World :=
  { heap := { objs := [(1, Obj.intptr (some 42))], room := 1 },
    monitors := [(7, MagickProgressMonitor.progressMonitor, 1)], posted := [], initCalls := [] }

/-- Two ticks of one job. -/
def World.twoTicks : List Tick := [⟨ascii "Load/Image", 0, 10⟩, ⟨ascii "Load/Image", 9, 10⟩]

/-! ## A reference JSON reader

The receiving side of the port is not part of this repository.  To state that
the posted text can be read back, the following is a reader for JSON texts
(RFC 8259) over bytes.  Numbers are restricted to integers: a fraction or an
exponent is rejected.  An object is read as the list of its members in order. -/

/-- A JSON value as read back from a text. -/
inductive JsonValue where
  | null
  | bool (b : Bool)
  | number (i : Int)
  | string (s : CString)
  | array (elements : List JsonValue)
  | object (members : List (CString × JsonValue))

/-- JSON whitespace: space, line feed, carriage return, tab. -/
def isJsonWs (c : Nat) : Bool := c == 32 || c == 10 || c == 13 || c == 9

/-- Drop leading whitespace. -/
def skipWs : List Nat → List Nat
  | [] => []
  | c :: rest => if isJsonWs c then skipWs rest else c :: rest

/-- A decimal digit. -/
def isDigit (c : Nat) : Bool := decide (48 ≤ c) && decide (c ≤ 57)

/-- The value of a hexadecimal digit. -/
def hexValue (c : Nat) : Option Nat :=
  if 48 ≤ c ∧ c ≤ 57 then some (c - 48)
  else if 97 ≤ c ∧ c ≤ 102 then some (c - 87)
  else if 65 ≤ c ∧ c ≤ 70 then some (c - 55)
  else none

/-- The value of four hexadecimal digits. -/
def hex4 (a b c d : Nat) : Option Nat :=
  match hexValue a, hexValue b, hexValue c, hexValue d with
  | some x, some y, some z, some u => some (((x * 16 + y) * 16 + z) * 16 + u)
  | _, _, _, _ => none

/-- The UTF-8 bytes of a code point. -/
def utf8Encode (cp : Nat) : List Nat :=
  if cp < 128 then [cp]
  else if cp < 2048 then [192 + cp / 64, 128 + cp % 64]
  else if cp < 65536 then [224 + cp / 4096, 128 + cp / 64 % 64, 128 + cp % 64]
  else [240 + cp / 262144, 128 + cp / 4096 % 64, 128 + cp / 64 % 64, 128 + cp % 64]

/-- Read what follows a backslash inside a string: the bytes it stands for and
the rest of the input.  A `\u` escape stands for the UTF-8 bytes of its code
point; a high surrogate must be followed by a low one. -/
def readEscape : List Nat → Option (List Nat × List Nat)
  | [] => none
  | e :: rest =>
    if e = 34 then some ([34], rest)
    else if e = 92 then some ([92], rest)
    else if e = 47 then some ([47], rest)
    else if e = 98 then some ([8], rest)
    else if e = 102 then some ([12], rest)
    else if e = 110 then some ([10], rest)
    else if e = 114 then some ([13], rest)
    else if e = 116 then some ([9], rest)
    else if e = 117 then
      match rest with
      | a :: b :: c :: d :: rest1 =>
        match hex4 a b c d with
        | none => none
        | some cp =>
          if cp < 55296 ∨ 57344 ≤ cp then some (utf8Encode cp, rest1)
          else if 56320 ≤ cp then none
          else match rest1 with
            | bs :: u :: a2 :: b2 :: c2 :: d2 :: rest2 =>
              if bs = 92 ∧ u = 117 then
                match hex4 a2 b2 c2 d2 with
                | none => none
                | some lo =>
                  if 56320 ≤ lo ∧ lo < 57344 then
                    some (utf8Encode (65536 + (cp - 55296) * 1024 + (lo - 56320)), rest2)
                  else none
              else none
            | _ => none
      | _ => none
    else none

/-- Read the inside of a string, the opening quote already consumed, up to and
including the closing quote.  The fuel bounds the number of elements read. -/
def readStringBody : Nat → List Nat → Option (CString × List Nat)
  | 0, _ => none
  | _ + 1, [] => none
  | fuel + 1, c :: rest =>
    if c = 34 then some ([], rest)
    else if c = 92 then
      match readEscape rest with
      | none => none
      | some (bytes, rest1) =>
        match readStringBody fuel rest1 with
        | none => none
        | some (s, rest2) => some (bytes ++ s, rest2)
    else if c < 32 then none
    else
      match readStringBody fuel rest with
      | none => none
      | some (s, rest2) => some (c :: s, rest2)

/-- Read a string whose opening quote has been consumed. -/
def readString (input : List Nat) : Option (CString × List Nat) :=
  readStringBody input.length input

/-- Read decimal digits while there are any, accumulating their value. -/
def readDigits : List Nat → Nat → Nat × List Nat
  | [], acc => (acc, [])
  | c :: rest, acc =>
    if isDigit c then readDigits rest (acc * 10 + (c - 48)) else (acc, c :: rest)

/-- Read an unsigned integer: a single `0`, or digits that do not start with `0`. -/
def readNat : List Nat → Option (Nat × List Nat)
  | [] => none
  | c :: rest =>
    if c = 48 then
      match rest with
      | [] => some (0, [])
      | d :: rest1 => if isDigit d then none else some (0, d :: rest1)
    else if isDigit c then some (readDigits (c :: rest) 0)
    else none

/-- What may not follow an integer: the start of a fraction or of an exponent. -/
def startsFraction : List Nat → Bool
  | [] => false
  | c :: _ => c == 46 || c == 101 || c == 69

/-- Read an integer number. -/
def readNumber : List Nat → Option (Int × List Nat)
  | [] => none
  | c :: rest =>
    if c = 45 then
      match readNat rest with
      | none => none
      | some (n, rest1) => if startsFraction rest1 then none else some (-(n : Int), rest1)
    else
      match readNat (c :: rest) with
      | none => none
      | some (n, rest1) => if startsFraction rest1 then none else some ((n : Int), rest1)

mutual
/-- Read one JSON value, leading whitespace included.  The fuel bounds the
nesting and the number of members read. -/
def readValue : Nat → List Nat → Option (JsonValue × List Nat)
  | 0, _ => none
  | fuel + 1, input =>
    match skipWs input with
    | [] => none
    | c :: rest =>
      if c = 34 then
        match readString rest with
        | none => none
        | some (s, rest1) => some (JsonValue.string s, rest1)
      else if c = 123 then
        match skipWs rest with
        | [] => none
        | d :: rest1 =>
          if d = 125 then some (JsonValue.object [], rest1)
          else match readMembers fuel (d :: rest1) with
            | none => none
            | some (ms, rest2) => some (JsonValue.object ms, rest2)
      else if c = 91 then
        match skipWs rest with
        | [] => none
        | d :: rest1 =>
          if d = 93 then some (JsonValue.array [], rest1)
          else match readElements fuel (d :: rest1) with
            | none => none
            | some (xs, rest2) => some (JsonValue.array xs, rest2)
      else if c = 116 then
        match rest with
        | r :: u :: e :: rest1 =>
          if r = 114 ∧ u = 117 ∧ e = 101 then some (JsonValue.bool true, rest1) else none
        | _ => none
      else if c = 102 then
        match rest with
        | a :: l :: s :: e :: rest1 =>
          if a = 97 ∧ l = 108 ∧ s = 115 ∧ e = 101 then some (JsonValue.bool false, rest1)
          else none
        | _ => none
      else if c = 110 then
        match rest with
        | u :: l :: l2 :: rest1 =>
          if u = 117 ∧ l = 108 ∧ l2 = 108 then some (JsonValue.null, rest1) else none
        | _ => none
      else
        match readNumber (c :: rest) with
        | none => none
        | some (i, rest1) => some (JsonValue.number i, rest1)
/-- Read the members of an object up to and including the closing brace; the
input stands at the first member. -/
def readMembers : Nat → List Nat → Option (List (CString × JsonValue) × List Nat)
  | 0, _ => none
  | fuel + 1, input =>
    match skipWs input with
    | [] => none
    | q :: rest =>
      if q = 34 then
        match readString rest with
        | none => none
        | some (key, rest1) =>
          match skipWs rest1 with
          | [] => none
          | colon :: rest2 =>
            if colon = 58 then
              match readValue fuel rest2 with
              | none => none
              | some (v, rest3) =>
                match skipWs rest3 with
                | [] => none
                | sep :: rest4 =>
                  if sep = 125 then some ([(key, v)], rest4)
                  else if sep = 44 then
                    match readMembers fuel rest4 with
                    | none => none
                    | some (ms, rest5) => some ((key, v) :: ms, rest5)
                  else none
            else none
      else none
/-- Read the elements of an array up to and including the closing bracket; the
input stands at the first element. -/
def readElements : Nat → List Nat → Option (List JsonValue × List Nat)
  | 0, _ => none
  | fuel + 1, input =>
    match readValue fuel input with
    | none => none
    | some (v, rest) =>
      match skipWs rest with
      | [] => none
      | sep :: rest1 =>
        if sep = 93 then some ([v], rest1)
        else if sep = 44 then
          match readElements fuel rest1 with
          | none => none
          | some (xs, rest2) => some (v :: xs, rest2)
        else none
end

/-- Read a whole JSON text: one value, then nothing but whitespace. -/
def parseJson (input : List Nat) : Option JsonValue :=
  match readValue (input.length + 1) input with
  | none => none
  | some (v, rest) => if skipWs rest = [] then some v else none

/-- The value of a digit string read after the value `a`. -/
def digitsValue (ds : List Nat) (a : Nat) : Nat := ds.foldl (fun x d => x * 10 + (d - 48)) a

/-! ## Lemmas on the heap -/

theorem lt_foldr_max (objs : List (Nat × Obj)) :
    ∀ e ∈ objs, e.1 < (objs.map Prod.fst).foldr max 0 + 1 := by
  induction objs with
  | nil => simp
  | cons x xs ih =>
    intro e he
    simp only [List.mem_cons] at he
    simp only [List.map_cons, List.foldr_cons]
    rcases he with rfl | he
    · omega
    · have := ih e he
      omega

theorem Heap.lt_fresh (h : Heap) : ∀ e ∈ h.objs, e.1 < h.fresh :=
  lt_foldr_max h.objs

theorem Heap.fresh_ne_zero (h : Heap) : h.fresh ≠ 0 :=
  Nat.succ_ne_zero _

theorem Heap.ne_fresh (h : Heap) : ∀ e ∈ h.objs, e.1 ≠ h.fresh :=
  fun e he => Nat.ne_of_lt (h.lt_fresh e he)

theorem map_set_of_ne (objs : List (Addr × Obj)) (a : Addr) (o : Obj)
    (hne : ∀ e ∈ objs, e.1 ≠ a) :
    objs.map (fun e => if e.1 = a then (e.1, o) else e) = objs := by
  induction objs with
  | nil => rfl
  | cons x xs ih =>
    have hx := hne x (List.mem_cons_self _ _)
    simp only [List.map_cons, hx, if_false]
    rw [ih (fun e he => hne e (List.mem_cons_of_mem _ he))]

theorem filter_of_ne (objs : List (Addr × Obj)) (a : Addr)
    (hne : ∀ e ∈ objs, e.1 ≠ a) :
    objs.filter (fun e => e.1 != a) = objs := by
  rw [List.filter_eq_self]
  intro e he
  simpa using hne e he

/-- What one call of `progressMonitor` does when the client data is a live
port cell holding `p` and the allocator has room for the envelope: it returns
`MagickTrue`, the heap is as before, and one message has been posted to `p`. -/
theorem progressMonitor_ok (text : CString) (offset : Int) (size : Nat) (c : Addr) (p : Int)
    (w : World) (hc : c ≠ 0) (hcell : w.heap.get c = some (Obj.intptr (some p)))
    (hroom : w.heap.room ≠ 0) :
    progressMonitor text offset size c w =
      .ok (MagickBooleanType.MagickTrue,
        { w with posted := w.posted ++
            [(p, { type := Dart_CObject_Type.Dart_CObject_kString,
                   as_string := renderedText ⟨text, offset, size⟩ })] }) := by
  obtain ⟨⟨objs, room⟩, monitors, posted, initCalls⟩ := w
  simp only at hcell hroom
  have hne := Heap.ne_fresh ⟨objs, room⟩
  have hf0 := Heap.fresh_ne_zero ⟨objs, room⟩
  have hr : room - 1 + 1 = room := Nat.sub_add_cancel (Nat.pos_of_ne_zero hroom)
  simp only [Heap.get] at hcell
  simp [progressMonitor, World.run, loadIntptr, hc, hcell, malloc, hroom, storeType, storeAsString,
    Heap.get, Heap.set, hf0, Dart_PostCObject_DL, free, renderedText, bind, Except.bind,
    pure, Except.pure, map_set_of_ne _ _ _ hne, filter_of_ne _ _ hne, hr]

/-- What `magickSetProgressMonitorPort` does when the allocator has room: it
returns the fresh address, where a cell holding the port now lives, and the wand
has `progressMonitor` registered with that cell as client data. -/
theorem magickSetProgressMonitorPort_ok (wand : Addr) (sendPort : Int) (w : World)
    (hroom : w.heap.room ≠ 0) :
    magickSetProgressMonitorPort wand sendPort w =
      .ok (w.heap.fresh,
        { w with
          heap := { objs := (w.heap.fresh, Obj.intptr (some sendPort)) :: w.heap.objs,
                    room := w.heap.room - 1 }
          monitors := (wand, MagickProgressMonitor.progressMonitor, w.heap.fresh) ::
            w.monitors.filter (fun e => e.1 != wand) }) := by
  obtain ⟨⟨objs, room⟩, monitors, posted, initCalls⟩ := w
  simp only at hroom
  have hne := Heap.ne_fresh ⟨objs, room⟩
  have hf0 := Heap.fresh_ne_zero ⟨objs, room⟩
  simp [magickSetProgressMonitorPort, World.run, malloc, hroom, storeIntptr, Heap.get,
    Heap.set, hf0,
    MagickSetProgressMonitor, bind, Except.bind, pure, Except.pure,
    map_set_of_ne _ _ _ hne]

/-- Running ticks against a live port cell: every tick posts one string
message to the port of the cell and the rest of the world is as before. -/
theorem runTicks_ok (c : Addr) (p : Int) (hc : c ≠ 0) (ticks : List Tick) :
    ∀ w : World, w.heap.get c = some (Obj.intptr (some p)) → w.heap.room ≠ 0 →
    runTicks c ticks w =
      .ok { w with posted := w.posted ++ ticks.map (fun t =>
              (p, { type := Dart_CObject_Type.Dart_CObject_kString,
                    as_string := renderedText t })) } := by
  induction ticks with
  | nil => intro w _ _; simp [runTicks]
  | cons t rest ih =>
    intro w hcell hroom
    simp only [runTicks, progressMonitor_ok t.text t.offset t.size c p w hc hcell hroom]
    rw [ih { w with posted := w.posted ++
      [(p, { type := Dart_CObject_Type.Dart_CObject_kString,
             as_string := renderedText ⟨t.text, t.offset, t.size⟩ })] } hcell hroom]
    simp

theorem toUInt64_of_lt (s : Nat) (hs : s < 2 ^ 64) : toUInt64 s = s :=
  Nat.mod_eq_of_lt hs

theorem toInt64_of_range (o : Int) (hlo : -2 ^ 63 ≤ o) (hhi : o < 2 ^ 63) : toInt64 o = o := by
  unfold toInt64
  rw [Int.emod_eq_of_lt (by omega) (by omega)]
  omega

/-- The text rendered for a tick, piece by piece: json-c's pretty form puts
every member on a line of its own, indented by two spaces, with no space after
the colon, and the closing brace on a last line. -/
theorem renderedText_eq (t : CString) (o : Int) (s : Nat) :
    renderedText ⟨t, o, s⟩ =
      ascii "\x7b\n  \"info\":\"" ++ json_escape_str JSON_C_TO_STRING_PRETTY t
        ++ ascii "\",\n  \"size\":" ++ printUInt64 (toUInt64 s)
        ++ ascii ",\n  \"offset\":" ++ printInt64 (toInt64 o) ++ ascii "\n\x7d" := by
  have h1 : ¬ (ascii "info" = ascii "size") := by decide
  have h2 : ¬ (ascii "info" = ascii "offset") := by decide
  have h3 : ¬ (ascii "size" = ascii "offset") := by decide
  have k1 : json_escape_str JSON_C_TO_STRING_PRETTY (ascii "info") = ascii "info" := by decide
  have k2 : json_escape_str JSON_C_TO_STRING_PRETTY (ascii "size") = ascii "size" := by decide
  have k3 : json_escape_str JSON_C_TO_STRING_PRETTY (ascii "offset") = ascii "offset" := by
    decide
  have f1 : hasFlag JSON_C_TO_STRING_PRETTY JSON_C_TO_STRING_PRETTY = true := by decide
  have f2 : hasFlag JSON_C_TO_STRING_PRETTY JSON_C_TO_STRING_SPACED = false := by decide
  have f3 : hasFlag JSON_C_TO_STRING_PRETTY JSON_C_TO_STRING_PRETTY_TAB = false := by decide
  have a1 : ascii "\x7b\n  \"info\":\"" =
      [123, 10, 32, 32, 34] ++ ascii "info" ++ [34, 58, 34] := by
    decide
  have a2 : ascii "\",\n  \"size\":" = [34, 44, 10, 32, 32, 34] ++ ascii "size" ++ [34, 58] := by
    decide
  have a3 : ascii ",\n  \"offset\":" = [44, 10, 32, 32, 34] ++ ascii "offset" ++ [34, 58] := by
    decide
  have a4 : ascii "\n\x7d" = [10, 125] := by decide
  rw [a1, a2, a3, a4]
  simp [renderedText, progressInfoToJsonObject, json_object_new_object, json_object_object_add,
    lh_table_put, json_object_new_string, json_object_new_uint64, json_object_new_int64,
    h1, h2, h3, json_object_to_json_string_ext, json_object_to_json_string_level,
    json_object_members_to_json_string, k1, k2, k3, f1, f2, f3, indent]

set_option maxRecDepth 100000 in
/-- The text rendered for the tick `"Convert"`, `-1`, `1024`. -/
theorem renderedText_Convert :
    renderedText ⟨ascii "Convert", -1, 1024⟩ =
      ascii "\x7b\n  \"info\":\"Convert\",\n  \"size\":1024,\n  \"offset\":-1\n\x7d" := by
  decide

/-! ## Reading back what json-c writes -/

/-- Reading one escaped byte: the reader gives back the byte json-c escaped. -/
theorem readStringBody_step (c k : Nat) (X : List Nat) :
    readStringBody (k + 1) (json_escape_char c JSON_C_TO_STRING_PRETTY ++ X) =
      match readStringBody k X with
      | none => none
      | some (s, r) => some (c :: s, r) := by
  have e1 : ascii "\\b" = [92, 98] := by decide
  have e2 : ascii "\\n" = [92, 110] := by decide
  have e3 : ascii "\\r" = [92, 114] := by decide
  have e4 : ascii "\\t" = [92, 116] := by decide
  have e5 : ascii "\\f" = [92, 102] := by decide
  have e6 : ascii "\\\"" = [92, 34] := by decide
  have e7 : ascii "\\\\" = [92, 92] := by decide
  have e8 : ascii "\\/" = [92, 47] := by decide
  have e9 : ascii "\\u00" = [92, 117, 48, 48] := by decide
  have fl : hasFlag JSON_C_TO_STRING_PRETTY JSON_C_TO_STRING_NOSLASHESCAPE = false := by decide
  by_cases h32 : c < 32
  · have hx : json_hex_chars = [48, 49, 50, 51, 52, 53, 54, 55, 56, 57, 97, 98, 99, 100, 101,
        102, 65, 66, 67, 68, 69, 70] := by decide
    interval_cases c <;>
      simp [json_escape_char, e1, e2, e3, e4, e5, e9, hx, readStringBody, readEscape, hex4,
        hexValue, utf8Encode]
  · by_cases h34 : c = 34
    · subst h34
      simp [json_escape_char, e6, readStringBody, readEscape]
    · by_cases h92 : c = 92
      · subst h92
        simp [json_escape_char, e7, readStringBody, readEscape]
      · by_cases h47 : c = 47
        · subst h47
          simp [json_escape_char, e8, fl, readStringBody, readEscape]
        · have h8 : c ≠ 8 := by omega
          have h10 : c ≠ 10 := by omega
          have h13 : c ≠ 13 := by omega
          have h9 : c ≠ 9 := by omega
          have h12 : c ≠ 12 := by omega
          simp [json_escape_char, h8, h10, h13, h9, h12, h34, h92, h47, h32,
            readStringBody]

theorem readStringBody_escaped (t : CString) :
    ∀ (fuel : Nat) (rest : List Nat), t.length < fuel →
      readStringBody fuel (json_escape_str JSON_C_TO_STRING_PRETTY t ++ 34 :: rest) =
        some (t, rest) := by
  induction t with
  | nil =>
    intro fuel rest hf
    obtain ⟨k, rfl⟩ : ∃ k, fuel = k + 1 := ⟨fuel - 1, by simp at hf; omega⟩
    simp [json_escape_str, readStringBody]
  | cons c t ih =>
    intro fuel rest hf
    obtain ⟨k, rfl⟩ : ∃ k, fuel = k + 1 := ⟨fuel - 1, by simp at hf; omega⟩
    have hk : t.length < k := by simp at hf; omega
    simp only [json_escape_str, List.append_assoc]
    rw [readStringBody_step, ih k rest hk]

theorem json_escape_char_length (c flags : Nat) : 1 ≤ (json_escape_char c flags).length := by
  unfold json_escape_char
  split_ifs <;> simp [ascii]

theorem json_escape_str_length (flags : Nat) (t : CString) :
    t.length ≤ (json_escape_str flags t).length := by
  induction t with
  | nil => simp
  | cons c t ih =>
    have := json_escape_char_length c flags
    simp only [json_escape_str, List.length_cons, List.length_append]
    omega

/-- A string written by json-c is read back as the bytes it was written from. -/
theorem readString_escaped (t : CString) (rest : List Nat) :
    readString (json_escape_str JSON_C_TO_STRING_PRETTY t ++ 34 :: rest) = some (t, rest) := by
  unfold readString
  apply readStringBody_escaped
  have := json_escape_str_length JSON_C_TO_STRING_PRETTY t
  simp only [List.length_append, List.length_cons]
  omega

theorem decimalAux_digits (fuel : Nat) :
    ∀ (n : Nat) (acc : List Nat), (∀ d ∈ acc, isDigit d = true) →
      ∀ d ∈ decimalAux fuel n acc, isDigit d = true := by
  induction fuel with
  | zero => intro n acc hacc; simpa [decimalAux] using hacc
  | succ k ih =>
    intro n acc hacc
    unfold decimalAux
    split_ifs with hn
    · intro d hd
      simp only [List.mem_cons] at hd
      rcases hd with rfl | hd
      · simp [isDigit]; omega
      · exact hacc d hd
    · apply ih
      intro d hd
      simp only [List.mem_cons] at hd
      rcases hd with rfl | hd
      · simp [isDigit]; omega
      · exact hacc d hd

theorem decimalAux_value (fuel : Nat) :
    ∀ (n : Nat) (acc : List Nat), n < fuel →
      digitsValue (decimalAux fuel n acc) 0 = digitsValue acc n := by
  induction fuel with
  | zero => intro n acc hn; omega
  | succ k ih =>
    intro n acc hn
    unfold decimalAux
    split_ifs with h10
    · simp [digitsValue]
    · rw [ih (n / 10) _ (by omega)]
      simp only [digitsValue, List.foldl_cons]
      congr 1
      omega

theorem decimalAux_head (fuel : Nat) :
    ∀ (n : Nat) (acc : List Nat), 0 < n → n < fuel →
      ∃ c tl, decimalAux fuel n acc = c :: tl ∧ 49 ≤ c ∧ c ≤ 57 := by
  induction fuel with
  | zero => intro n acc _ hn; omega
  | succ k ih =>
    intro n acc hpos hn
    unfold decimalAux
    split_ifs with h10
    · exact ⟨48 + n, acc, rfl, by omega, by omega⟩
    · exact ih (n / 10) _ (by omega) (by omega)

theorem readDigits_append (ds : List Nat) :
    ∀ (a r : Nat) (rest : List Nat), (∀ d ∈ ds, isDigit d = true) → isDigit r = false →
      readDigits (ds ++ r :: rest) a = (digitsValue ds a, r :: rest) := by
  induction ds with
  | nil => intro a r rest _ hr; simp [readDigits, hr, digitsValue]
  | cons d ds ih =>
    intro a r rest hds hr
    have hd : isDigit d = true := hds d (List.mem_cons_self _ _)
    have step : readDigits ((d :: ds) ++ r :: rest) a =
        readDigits (ds ++ r :: rest) (a * 10 + (d - 48)) := by
      simp [readDigits, hd]
    rw [step, ih _ r rest (fun x hx => hds x (List.mem_cons_of_mem _ hx)) hr]
    simp [digitsValue]

/-- An unsigned numeral written by `snprintf` is read back as its value. -/
theorem readNat_printUInt64 (n r : Nat) (rest : List Nat) (hr : isDigit r = false) :
    readNat (printUInt64 n ++ r :: rest) = some (n, r :: rest) := by
  rcases Nat.eq_zero_or_pos n with rfl | hpos
  · simp [printUInt64, decimalAux, readNat, hr]
  · obtain ⟨c, tl, hct, hlo, hhi⟩ := decimalAux_head (n + 1) n [] hpos (by omega)
    have hall := decimalAux_digits (n + 1) n [] (by simp)
    have hval := decimalAux_value (n + 1) n [] (by omega)
    have hc48 : c ≠ 48 := by omega
    have hcd : isDigit c = true := by simp [isDigit]; omega
    unfold printUInt64
    rw [hct] at hall hval ⊢
    simp only [List.cons_append, readNat, hc48, if_false, hcd, if_true]
    rw [← List.cons_append, readDigits_append (c :: tl) 0 r rest hall hr, hval]
    simp [digitsValue]

theorem printUInt64_head (n : Nat) :
    ∃ c tl, printUInt64 n = c :: tl ∧ 48 ≤ c ∧ c ≤ 57 := by
  rcases Nat.eq_zero_or_pos n with rfl | hpos
  · exact ⟨48, [], by simp [printUInt64, decimalAux], by omega, by omega⟩
  · obtain ⟨c, tl, hct, hlo, hhi⟩ := decimalAux_head (n + 1) n [] hpos (by omega)
    exact ⟨c, tl, hct, by omega, hhi⟩

/-- A signed numeral written by `snprintf` is read back as its value. -/
theorem readNumber_printInt64 (i : Int) (r : Nat) (rest : List Nat) (hr : isDigit r = false)
    (hfrac : startsFraction (r :: rest) = false) :
    readNumber (printInt64 i ++ r :: rest) = some (i, r :: rest) := by
  unfold printInt64
  split_ifs with hneg
  · have hi : -((i.natAbs : Nat) : Int) = i := by omega
    simp only [readNumber, List.cons_append, if_true, readNat_printUInt64 _ r rest hr, hfrac,
      hi]
    simp
  · obtain ⟨c, tl, hct, hlo, hhi⟩ := printUInt64_head i.natAbs
    have hc45 : c ≠ 45 := by omega
    have hi : ((i.natAbs : Nat) : Int) = i := by omega
    have hread := readNat_printUInt64 i.natAbs r rest hr
    rw [hct] at hread ⊢
    simp only [List.cons_append] at hread ⊢
    simp [readNumber, hc45, hread, hfrac, hi]

theorem printInt64_head (i : Int) :
    ∃ c tl, printInt64 i = c :: tl ∧ (c = 45 ∨ (48 ≤ c ∧ c ≤ 57)) := by
  unfold printInt64
  split_ifs with hneg
  · exact ⟨45, _, rfl, Or.inl rfl⟩
  · obtain ⟨c, tl, hct, hlo, hhi⟩ := printUInt64_head i.natAbs
    exact ⟨c, tl, hct, Or.inr ⟨hlo, hhi⟩⟩

theorem printInt64_natCast (n : Nat) : printInt64 (n : Int) = printUInt64 n := by
  unfold printInt64
  have h : ¬ ((n : Int) < 0) := by omega
  simp [h]

theorem readValue_string (f : Nat) (t : CString) (R : List Nat) :
    readValue (f + 1) (34 :: (json_escape_str JSON_C_TO_STRING_PRETTY t ++ 34 :: R)) =
      some (JsonValue.string t, R) := by
  simp [readValue, skipWs, isJsonWs, readString_escaped]

theorem readValue_number (f : Nat) (i : Int) (r : Nat) (R : List Nat)
    (hr : isDigit r = false) (hfrac : startsFraction (r :: R) = false) :
    readValue (f + 1) (printInt64 i ++ r :: R) = some (JsonValue.number i, r :: R) := by
  have hread := readNumber_printInt64 i r R hr hfrac
  obtain ⟨c, tl, hct, hc⟩ := printInt64_head i
  rw [hct] at hread ⊢
  simp only [List.cons_append] at hread ⊢
  have hws : isJsonWs c = false := by
    rcases hc with rfl | ⟨h1, h2⟩
    · decide
    · simp [isJsonWs]; omega
  have n1 : c ≠ 34 := by omega
  have n2 : c ≠ 123 := by omega
  have n3 : c ≠ 91 := by omega
  have n4 : c ≠ 116 := by omega
  have n5 : c ≠ 102 := by omega
  have n6 : c ≠ 110 := by omega
  simp [readValue, skipWs, hws, n1, n2, n3, n4, n5, n6, hread]

theorem readMembers_more (f : Nat) (key : CString) (I VR R1 R2 : List Nat) (v : JsonValue)
    (hk : json_escape_str JSON_C_TO_STRING_PRETTY key = key)
    (hI : skipWs I = 34 :: (key ++ 34 :: 58 :: VR))
    (hv : readValue f VR = some (v, R1)) (hsep : skipWs R1 = 44 :: R2) :
    readMembers (f + 1) I =
      match readMembers f R2 with
      | none => none
      | some (ms, r) => some ((key, v) :: ms, r) := by
  have hkey := readString_escaped key (58 :: VR)
  rw [hk] at hkey
  simp [readMembers, hI, hkey, skipWs, isJsonWs, hv, hsep]

theorem readMembers_last (f : Nat) (key : CString) (I VR R1 R2 : List Nat) (v : JsonValue)
    (hk : json_escape_str JSON_C_TO_STRING_PRETTY key = key)
    (hI : skipWs I = 34 :: (key ++ 34 :: 58 :: VR))
    (hv : readValue f VR = some (v, R1)) (hsep : skipWs R1 = 125 :: R2) :
    readMembers (f + 1) I = some ([(key, v)], R2) := by
  have hkey := readString_escaped key (58 :: VR)
  rw [hk] at hkey
  simp [readMembers, hI, hkey, skipWs, isJsonWs, hv, hsep]

/-- Reading the text of a progress event with enough fuel. -/
theorem readValue_event (f : Nat) (t : CString) (o : Int) (s : Nat) :
    readValue (f + 5)
      (ascii "\x7b\n  \"info\":\"" ++ json_escape_str JSON_C_TO_STRING_PRETTY t
        ++ ascii "\",\n  \"size\":" ++ printUInt64 s
        ++ ascii ",\n  \"offset\":" ++ printInt64 o ++ ascii "\n\x7d") =
      some (JsonValue.object [(ascii "info", JsonValue.string t),
        (ascii "size", JsonValue.number (s : Int)), (ascii "offset", JsonValue.number o)], []) := by
  have k1 : json_escape_str JSON_C_TO_STRING_PRETTY (ascii "info") = ascii "info" := by decide
  have k2 : json_escape_str JSON_C_TO_STRING_PRETTY (ascii "size") = ascii "size" := by decide
  have k3 : json_escape_str JSON_C_TO_STRING_PRETTY (ascii "offset") = ascii "offset" := by
    decide
  have a1 : ascii "\x7b\n  \"info\":\"" =
      [123, 10, 32, 32, 34] ++ ascii "info" ++ [34, 58, 34] := by
    decide
  have a2 : ascii "\",\n  \"size\":" = [34, 44, 10, 32, 32, 34] ++ ascii "size" ++ [34, 58] := by
    decide
  have a3 : ascii ",\n  \"offset\":" = [44, 10, 32, 32, 34] ++ ascii "offset" ++ [34, 58] := by
    decide
  have a4 : ascii "\n\x7d" = [10, 125] := by decide
  -- the third member, then the closing brace
  obtain ⟨T3, hT3⟩ : ∃ T3, T3 =
      10 :: 32 :: 32 :: 34 :: (ascii "offset" ++ 34 :: 58 :: (printInt64 o ++ [10, 125])) :=
    ⟨_, rfl⟩
  obtain ⟨T2, hT2⟩ : ∃ T2, T2 =
      10 :: 32 :: 32 :: 34 :: (ascii "size" ++ 34 :: 58 :: (printUInt64 s ++ 44 :: T3)) :=
    ⟨_, rfl⟩
  have m3 : readMembers (f + 2) T3 = some ([(ascii "offset", JsonValue.number o)], []) := by
    rw [hT3]
    exact readMembers_last (f + 1) (ascii "offset") _ (printInt64 o ++ [10, 125]) [10, 125] []
      (JsonValue.number o) k3 (by simp [skipWs, isJsonWs])
      (readValue_number f o 10 [125] (by decide) (by decide)) (by simp [skipWs, isJsonWs])
  -- the second member
  have v2 : readValue (f + 2) (printUInt64 s ++ 44 :: T3) =
      some (JsonValue.number (s : Int), 44 :: T3) := by
    rw [← printInt64_natCast]
    exact readValue_number (f + 1) (s : Int) 44 T3 (by decide) (by simp [startsFraction])
  have m2 : readMembers (f + 3) T2 =
      some ([(ascii "size", JsonValue.number (s : Int)),
        (ascii "offset", JsonValue.number o)], []) := by
    rw [hT2, readMembers_more (f + 2) (ascii "size") _ (printUInt64 s ++ 44 :: T3) (44 :: T3) T3
      (JsonValue.number (s : Int)) k2 (by simp [skipWs, isJsonWs]) v2
      (by simp [skipWs, isJsonWs]), m3]
  -- the first member
  have m1 : readMembers (f + 4)
      (34 :: (ascii "info" ++ 34 :: 58 :: 34 ::
        (json_escape_str JSON_C_TO_STRING_PRETTY t ++ 34 :: 44 :: T2))) =
      some ([(ascii "info", JsonValue.string t), (ascii "size", JsonValue.number (s : Int)),
        (ascii "offset", JsonValue.number o)], []) := by
    rw [readMembers_more (f + 3) (ascii "info") _
      (34 :: (json_escape_str JSON_C_TO_STRING_PRETTY t ++ 34 :: 44 :: T2)) (44 :: T2) T2
      (JsonValue.string t) k1 (by simp [skipWs, isJsonWs]) (readValue_string (f + 2) t _)
      (by simp [skipWs, isJsonWs]), m2]
  rw [a1, a2, a3, a4]
  simp only [List.append_assoc, List.cons_append, List.nil_append]
  simp only [← hT3, ← hT2]
  simp [readValue, skipWs, isJsonWs, m1]

/-- Reading back the text rendered for a progress event gives the object with
the members `info`, `size` and `offset` holding the text, the size and the
offset. -/
theorem parseJson_rendered (t : CString) (o : Int) (s : Nat)
    (hlo : -2 ^ 63 ≤ o) (hhi : o < 2 ^ 63) (hs : s < 2 ^ 64) :
    parseJson (json_object_to_json_string_ext (progressInfoToJsonObject t o s)
        JSON_C_TO_STRING_PRETTY) =
      some (JsonValue.object [(ascii "info", JsonValue.string t),
        (ascii "size", JsonValue.number (s : Int)), (ascii "offset", JsonValue.number o)]) := by
  have htext := renderedText_eq t o s
  simp only [renderedText] at htext
  rw [htext, toUInt64_of_lt s hs, toInt64_of_range o hlo hhi]
  unfold parseJson
  have hlen : ∃ f, (ascii "\x7b\n  \"info\":\"" ++ json_escape_str JSON_C_TO_STRING_PRETTY t
        ++ ascii "\",\n  \"size\":" ++ printUInt64 s
        ++ ascii ",\n  \"offset\":" ++ printInt64 o ++ ascii "\n\x7d").length + 1 = f + 5 := by
    have h12 : (ascii "\x7b\n  \"info\":\"").length = 12 := by decide
    refine ⟨(ascii "\x7b\n  \"info\":\"" ++ json_escape_str JSON_C_TO_STRING_PRETTY t
        ++ ascii "\",\n  \"size\":" ++ printUInt64 s
        ++ ascii ",\n  \"offset\":" ++ printInt64 o ++ ascii "\n\x7d").length - 4, ?_⟩
    simp only [List.length_append, h12]
    omega
  obtain ⟨f, hf⟩ := hlen
  rw [hf, readValue_event]
  simp [skipWs]

/-! ## The claims -/

/-- C1: round trip of the progress event.  For every text `t`, every signed
64-bit offset `o` and every unsigned 64-bit size `s` (up to `2^64 - 1`), a call
of `progressMonitor` (client data a live port cell, room for the envelope)
posts one string message whose text is the JSON string rendered from
`progressInfoToJsonObject t o s`, and reading that text back gives an object
with exactly the members `info`, `size` and `offset`, holding `t`, `s` and `o`. -/
theorem progress_event_round_trip (t : CString) (o : Int) (s : Nat)
    (hlo : -2 ^ 63 ≤ o) (hhi : o < 2 ^ 63) (hs : s < 2 ^ 64)
    (c : Addr) (p : Int) (w : World) (hc : c ≠ 0)
    (hcell : w.heap.get c = some (Obj.intptr (some p))) (hroom : w.heap.room ≠ 0) :
    ∃ w1 msg,
      progressMonitor t o s c w = .ok (MagickBooleanType.MagickTrue, w1) ∧
      w1.posted = w.posted ++ [(p, msg)] ∧
      msg.type = Dart_CObject_Type.Dart_CObject_kString ∧
      msg.as_string = json_object_to_json_string_ext (progressInfoToJsonObject t o s)
        JSON_C_TO_STRING_PRETTY ∧
      parseJson msg.as_string =
        some (JsonValue.object [(ascii "info", JsonValue.string t),
          (ascii "size", JsonValue.number (s : Int)), (ascii "offset", JsonValue.number o)]) :=
  ⟨_, _, progressMonitor_ok t o s c p w hc hcell hroom, rfl, rfl, rfl,
    parseJson_rendered t o s hlo hhi hs⟩

theorem progress_event_round_trip_witness :
    ∃ w1 msg,
      progressMonitor (ascii "Load/Image") (-9223372036854775808) 18446744073709551615 1
        (World.withCell 42 1) = .ok (MagickBooleanType.MagickTrue, w1) ∧
      w1.posted = (World.withCell 42 1).posted ++ [(42, msg)] ∧
      msg.type = Dart_CObject_Type.Dart_CObject_kString ∧
      msg.as_string = json_object_to_json_string_ext
        (progressInfoToJsonObject (ascii "Load/Image") (-9223372036854775808)
          18446744073709551615) JSON_C_TO_STRING_PRETTY ∧
      parseJson msg.as_string =
        some (JsonValue.object [(ascii "info", JsonValue.string (ascii "Load/Image")),
          (ascii "size", JsonValue.number ((18446744073709551615 : Nat) : Int)),
          (ascii "offset", JsonValue.number (-9223372036854775808))]) :=
  progress_event_round_trip (ascii "Load/Image") (-9223372036854775808) 18446744073709551615
    (by decide) (by decide) (by decide) 1 42 (World.withCell 42 1)
    (by decide) (by decide) (by decide)

/-- C2: `progressMonitor` returns the continue signal `MagickTrue` whatever the
text, the offset, the size and the port held in the client-data cell are (the
cell being live and the allocator having room for the message envelope, so that
the call returns at all). -/
theorem progressMonitor_returns_MagickTrue (text : CString) (offset : Int) (size : Nat)
    (c : Addr) (p : Int) (w : World) (hc : c ≠ 0)
    (hcell : w.heap.get c = some (Obj.intptr (some p))) (hroom : w.heap.room ≠ 0) :
    ∃ w1, progressMonitor text offset size c w = .ok (MagickBooleanType.MagickTrue, w1) :=
  ⟨_, progressMonitor_ok text offset size c p w hc hcell hroom⟩

theorem progressMonitor_returns_MagickTrue_witness :
    ∃ w1, progressMonitor [] (-9223372036854775808) 18446744073709551615 1
        (World.withCell 0 1) = .ok (MagickBooleanType.MagickTrue, w1) :=
  progressMonitor_returns_MagickTrue [] (-9223372036854775808) 18446744073709551615 1 0
    (World.withCell 0 1) (by decide) (by decide) (by decide)

/-- C3: for a signed 64-bit offset `o` and an unsigned 64-bit size `s`,
`progressInfoToJsonObject t o s` is the object with exactly the three members
`"info"` (the string `t`), `"size"` (the unsigned integer `s`) and `"offset"`
(the signed integer `o`), in this order. -/
theorem progressInfoToJsonObject_members (t : CString) (o : Int) (s : Nat)
    (hlo : -2 ^ 63 ≤ o) (hhi : o < 2 ^ 63) (hs : s < 2 ^ 64) :
    progressInfoToJsonObject t o s =
      json_object.json_type_object
        [(ascii "info", json_object.json_type_string t),
         (ascii "size", json_object.json_type_uint64 s),
         (ascii "offset", json_object.json_type_int64 o)] := by
  have h1 : ¬ (ascii "info" = ascii "size") := by decide
  have h2 : ¬ (ascii "info" = ascii "offset") := by decide
  have h3 : ¬ (ascii "size" = ascii "offset") := by decide
  simp [progressInfoToJsonObject, json_object_new_object, json_object_object_add, lh_table_put,
    json_object_new_string, json_object_new_uint64, json_object_new_int64, h1, h2, h3,
    toUInt64_of_lt s hs, toInt64_of_range o hlo hhi]

theorem progressInfoToJsonObject_members_witness :
    progressInfoToJsonObject (ascii "Load/Image") (-9223372036854775808) 18446744073709551615 =
      json_object.json_type_object
        [(ascii "info", json_object.json_type_string (ascii "Load/Image")),
         (ascii "size", json_object.json_type_uint64 18446744073709551615),
         (ascii "offset", json_object.json_type_int64 (-9223372036854775808))] :=
  progressInfoToJsonObject_members (ascii "Load/Image") (-9223372036854775808)
    18446744073709551615 (by decide) (by decide) (by decide)

/-- C4: if `magickSetProgressMonitorPort wand p` returns the cell `c`, then the
wand has `progressMonitor` registered with client data `c`, and an invocation of
`progressMonitor` with client data `c`, in any world where the cell is as the
registration left it and the allocator has room for the envelope, posts exactly
one message: to port `p`, tagged `Dart_CObject_kString`, carrying the JSON text
rendered from that invocation's text, offset and size. -/
theorem port_handoff (wand : Addr) (p : Int) (w : World) (c : Addr) (w1 : World)
    (hreg : magickSetProgressMonitorPort wand p w = .ok (c, w1))
    (w2 : World) (hcell : w2.heap.get c = w1.heap.get c) (hroom : w2.heap.room ≠ 0)
    (text : CString) (offset : Int) (size : Nat) :
    w1.monitors.lookup wand = some (MagickProgressMonitor.progressMonitor, c) ∧
    progressMonitor text offset size c w2 =
      .ok (MagickBooleanType.MagickTrue,
        { w2 with posted := w2.posted ++
            [(p, { type := Dart_CObject_Type.Dart_CObject_kString,
                   as_string := json_object_to_json_string_ext
                     (progressInfoToJsonObject text offset size) JSON_C_TO_STRING_PRETTY })] }) := by
  have hr : w.heap.room ≠ 0 := by
    intro h0
    simp [magickSetProgressMonitorPort, World.run, malloc, h0, storeIntptr, bind,
      Except.bind] at hreg
  rw [magickSetProgressMonitorPort_ok wand p w hr] at hreg
  simp only [Except.ok.injEq, Prod.mk.injEq] at hreg
  obtain ⟨hc, hw1⟩ := hreg
  subst hc
  subst hw1
  refine ⟨by simp [List.lookup], ?_⟩
  have hget : w2.heap.get w.heap.fresh = some (Obj.intptr (some p)) := by
    rw [hcell]
    simp [Heap.get, List.lookup]
  exact progressMonitor_ok text offset size _ p w2 (Heap.fresh_ne_zero _) hget hroom

theorem port_handoff_witness :
    World.registered.monitors.lookup 7 = some (MagickProgressMonitor.progressMonitor, 1) ∧
    progressMonitor (ascii "Convert") (-1) 1024 1 World.registered =
      .ok (MagickBooleanType.MagickTrue,
        { heap := World.registered.heap
          monitors := World.registered.monitors
          posted := World.registered.posted ++
            [(42, { type := Dart_CObject_Type.Dart_CObject_kString,
                    as_string := json_object_to_json_string_ext
                      (progressInfoToJsonObject (ascii "Convert") (-1) 1024)
                      JSON_C_TO_STRING_PRETTY })]
          initCalls := World.registered.initCalls }) :=
  port_handoff 7 42 (World.empty 2) 1 World.registered rfl World.registered rfl (by decide)
    (ascii "Convert") (-1) 1024

/-- C5: with `size = 2^64 - 1` the message posted by the callback carries the
size member as the numeral `18446744073709551615`, whatever the text and the
offset are: all twenty digits, no sign. -/
theorem progressMonitor_max_size (text : CString) (offset : Int) (c : Addr) (p : Int)
    (w : World) (hc : c ≠ 0) (hcell : w.heap.get c = some (Obj.intptr (some p)))
    (hroom : w.heap.room ≠ 0) :
    progressMonitor text offset (2 ^ 64 - 1) c w =
      .ok (MagickBooleanType.MagickTrue,
        { w with posted := w.posted ++
            [(p, { type := Dart_CObject_Type.Dart_CObject_kString,
                   as_string :=
                     ascii "\x7b\n  \"info\":\"" ++ json_escape_str JSON_C_TO_STRING_PRETTY text
                       ++ ascii "\",\n  \"size\":18446744073709551615,\n  \"offset\":"
                       ++ printInt64 (toInt64 offset) ++ ascii "\n\x7d" })] }) := by
  have hsz : printUInt64 (toUInt64 (2 ^ 64 - 1)) = ascii "18446744073709551615" := by decide
  have hsplit : ascii "\",\n  \"size\":18446744073709551615,\n  \"offset\":" =
      ascii "\",\n  \"size\":" ++ ascii "18446744073709551615" ++ ascii ",\n  \"offset\":" := by
    decide
  rw [progressMonitor_ok text offset (2 ^ 64 - 1) c p w hc hcell hroom, renderedText_eq, hsz,
    hsplit]
  simp only [List.append_assoc]

theorem progressMonitor_max_size_witness :
    progressMonitor (ascii "Resize/Image") (-1) (2 ^ 64 - 1) 1 (World.withCell 42 1) =
      .ok (MagickBooleanType.MagickTrue,
        { heap := (World.withCell 42 1).heap
          monitors := (World.withCell 42 1).monitors
          posted := (World.withCell 42 1).posted ++
            [(42, { type := Dart_CObject_Type.Dart_CObject_kString,
                    as_string :=
                      ascii "\x7b\n  \"info\":\""
                        ++ json_escape_str JSON_C_TO_STRING_PRETTY (ascii "Resize/Image")
                        ++ ascii "\",\n  \"size\":18446744073709551615,\n  \"offset\":"
                        ++ printInt64 (toInt64 (-1)) ++ ascii "\n\x7d" })]
          initCalls := (World.withCell 42 1).initCalls }) :=
  progressMonitor_max_size (ascii "Resize/Image") (-1) 1 42 (World.withCell 42 1)
    (by decide) (by decide) (by decide)

/-- C6, the text as the claim gives it: for `"Convert"`, `-1`, `1024` the
payload that `progressMonitor` posts is not the one-line text
`{"info":"Convert","size":1024,"offset":-1}`. -/
theorem progressMonitor_Convert_not_compact :
    ∃ w1, progressMonitor (ascii "Convert") (-1) 1024 1 (World.withCell 42 1) =
        .ok (MagickBooleanType.MagickTrue, w1) ∧
      w1.posted.map (fun m => m.2.as_string) ≠
        [ascii "\x7b\"info\":\"Convert\",\"size\":1024,\"offset\":-1\x7d"] := by
  refine ⟨_, progressMonitor_ok (ascii "Convert") (-1) 1024 1 42 (World.withCell 42 1)
    (by decide) (by decide) (by decide), ?_⟩
  decide

/-- C6, amended: for `"Convert"`, `-1`, `1024` the payload that
`progressMonitor` posts is the pretty-printed text: an opening brace, each
member on a line of its own behind two spaces (no space after the colon), and
the closing brace on a last line. -/
theorem progressMonitor_Convert_pretty (c : Addr) (p : Int) (w : World) (hc : c ≠ 0)
    (hcell : w.heap.get c = some (Obj.intptr (some p))) (hroom : w.heap.room ≠ 0) :
    progressMonitor (ascii "Convert") (-1) 1024 c w =
      .ok (MagickBooleanType.MagickTrue,
        { w with posted := w.posted ++
            [(p, { type := Dart_CObject_Type.Dart_CObject_kString,
                   as_string :=
                     ascii "\x7b\n  \"info\":\"Convert\",\n  \"size\":1024,\n  \"offset\":-1\n\x7d" })] }) := by
  rw [progressMonitor_ok (ascii "Convert") (-1) 1024 c p w hc hcell hroom,
    renderedText_Convert]

theorem progressMonitor_Convert_pretty_witness :
    progressMonitor (ascii "Convert") (-1) 1024 1 (World.withCell 42 1) =
      .ok (MagickBooleanType.MagickTrue,
        { heap := (World.withCell 42 1).heap
          monitors := (World.withCell 42 1).monitors
          posted := (World.withCell 42 1).posted ++
            [(42, { type := Dart_CObject_Type.Dart_CObject_kString,
                    as_string :=
                      ascii "\x7b\n  \"info\":\"Convert\",\n  \"size\":1024,\n  \"offset\":-1\n\x7d" })]
          initCalls := (World.withCell 42 1).initCalls }) :=
  progressMonitor_Convert_pretty 1 42 (World.withCell 42 1) (by decide) (by decide) (by decide)

/-- C7, the claim as stated: with no room left in the allocator, `malloc`
returns the null pointer and `magickSetProgressMonitorPort` does not return a
null pointer to its caller: it does not return at all. -/
theorem magickSetProgressMonitorPort_no_null_result :
    (malloc (Obj.intptr none) (World.empty 0).heap).1 = 0 ∧
    ¬ ∃ w1, magickSetProgressMonitorPort 7 42 (World.empty 0) = .ok (0, w1) := by
  refine ⟨by decide, ?_⟩
  rintro ⟨w1, h⟩
  have hcalc : magickSetProgressMonitorPort 7 42 (World.empty 0) =
      .error { fault := Fault.nullDereference, world := World.empty 0 } := rfl
  rw [hcalc] at h
  cases h

/-- C7, amended: when the allocation of the port cell fails (`malloc` returns
the null pointer), `magickSetProgressMonitorPort` stores the port through the
null pointer, unchecked: the call ends in that fault and returns nothing to its
caller, and the world at the fault is the world the call started in, so no
monitor has been registered (and nothing allocated or posted). -/
theorem magickSetProgressMonitorPort_alloc_failure (wand : Addr) (sendPort : Int) (w : World)
    (hfail : (malloc (Obj.intptr none) w.heap).1 = 0) :
    magickSetProgressMonitorPort wand sendPort w =
      .error { fault := Fault.nullDereference, world := w } := by
  have hroom : w.heap.room = 0 := by
    by_contra hne
    simp [malloc, hne, Heap.fresh_ne_zero] at hfail
  simp [magickSetProgressMonitorPort, World.run, malloc, hroom, storeIntptr, bind, Except.bind]

theorem magickSetProgressMonitorPort_alloc_failure_witness :
    magickSetProgressMonitorPort 7 42 (World.empty 0) =
      .error { fault := Fault.nullDereference, world := World.empty 0 } :=
  magickSetProgressMonitorPort_alloc_failure 7 42 (World.empty 0) (by decide)

/-- C8: with room for two cells, two calls of `magickSetProgressMonitorPort` on
the same wand both return; the two cells are distinct and not null, the first
holds `p1` and the second `p2`, and after the second call the first cell still
holds `p1`. -/
theorem magickSetProgressMonitorPort_twice (wand : Addr) (p1 p2 : Int) (w : World)
    (hroom : 2 ≤ w.heap.room) :
    ∃ c1 w1 c2 w2,
      magickSetProgressMonitorPort wand p1 w = .ok (c1, w1) ∧
      magickSetProgressMonitorPort wand p2 w1 = .ok (c2, w2) ∧
      c1 ≠ 0 ∧ c2 ≠ 0 ∧ c1 ≠ c2 ∧
      w1.heap.get c1 = some (Obj.intptr (some p1)) ∧
      w2.heap.get c2 = some (Obj.intptr (some p2)) ∧
      w2.heap.get c1 = some (Obj.intptr (some p1)) := by
  have hr1 : w.heap.room ≠ 0 := by omega
  have hr2 : w.heap.room - 1 ≠ 0 := by omega
  have e1 := magickSetProgressMonitorPort_ok wand p1 w hr1
  have e2 := magickSetProgressMonitorPort_ok wand p2
    { w with
      heap := { objs := (w.heap.fresh, Obj.intptr (some p1)) :: w.heap.objs,
                room := w.heap.room - 1 }
      monitors := (wand, MagickProgressMonitor.progressMonitor, w.heap.fresh) ::
        w.monitors.filter (fun e => e.1 != wand) } hr2
  refine ⟨_, _, _, _, e1, e2, Heap.fresh_ne_zero _, Heap.fresh_ne_zero _, ?_, ?_, ?_, ?_⟩
  · have := Heap.ne_fresh ⟨(w.heap.fresh, Obj.intptr (some p1)) :: w.heap.objs, w.heap.room - 1⟩
      (w.heap.fresh, Obj.intptr (some p1)) (List.mem_cons_self _ _)
    exact this
  · simp [Heap.get, List.lookup]
  · simp [Heap.get, List.lookup]
  · have hne := Heap.ne_fresh
      ⟨(w.heap.fresh, Obj.intptr (some p1)) :: w.heap.objs, w.heap.room - 1⟩
      (w.heap.fresh, Obj.intptr (some p1)) (List.mem_cons_self _ _)
    have hb : (w.heap.fresh == Heap.fresh
        ⟨(w.heap.fresh, Obj.intptr (some p1)) :: w.heap.objs, w.heap.room - 1⟩) = false := by
      simpa using hne
    simp [Heap.get, List.lookup, hb]

theorem magickSetProgressMonitorPort_twice_witness :
    ∃ c1 w1 c2 w2,
      magickSetProgressMonitorPort 7 42 (World.empty 2) = .ok (c1, w1) ∧
      magickSetProgressMonitorPort 7 43 w1 = .ok (c2, w2) ∧
      c1 ≠ 0 ∧ c2 ≠ 0 ∧ c1 ≠ c2 ∧
      w1.heap.get c1 = some (Obj.intptr (some 42)) ∧
      w2.heap.get c2 = some (Obj.intptr (some 43)) ∧
      w2.heap.get c1 = some (Obj.intptr (some 42)) :=
  magickSetProgressMonitorPort_twice 7 42 43 (World.empty 2) (by decide)

/-- C9: `initDartAPI d` returns the result of `Dart_InitializeApiDL d`
unchanged, whatever the pointer `d` is (null included); the initializer is
called exactly once, with `d`, and nothing else in the world changes. -/
theorem initDartAPI_forwards (Dart_InitializeApiDL : Addr → Int) (d : Addr) (w : World) :
    (initDartAPI Dart_InitializeApiDL d w).1 = Dart_InitializeApiDL d ∧
    (initDartAPI Dart_InitializeApiDL d w).2.initCalls = w.initCalls ++ [d] ∧
    (initDartAPI Dart_InitializeApiDL d w).2.heap = w.heap ∧
    (initDartAPI Dart_InitializeApiDL d w).2.monitors = w.monitors ∧
    (initDartAPI Dart_InitializeApiDL d w).2.posted = w.posted :=
  ⟨rfl, rfl, rfl, rfl, rfl⟩

/-- C10: `progressMonitor` only reads the port cell.  With a live cell `c`
holding `p`: one invocation leaves the whole heap, the cell included, as it was;
and a run of any ticks returns with the heap unchanged, the cell still holding
`p`, and exactly one message per tick posted, each to port `p`, each carrying
the text rendered from its own tick alone. -/
theorem progressMonitor_reads_only (c : Addr) (p : Int) (w : World) (hc : c ≠ 0)
    (hcell : w.heap.get c = some (Obj.intptr (some p))) (hroom : w.heap.room ≠ 0)
    (ticks : List Tick) :
    (∀ t : Tick, ∃ w1, progressMonitor t.text t.offset t.size c w =
        .ok (MagickBooleanType.MagickTrue, w1) ∧ w1.heap = w.heap) ∧
    ∃ w1, runTicks c ticks w = .ok w1 ∧ w1.heap = w.heap ∧
      w1.heap.get c = some (Obj.intptr (some p)) ∧
      w1.posted = w.posted ++ ticks.map (fun t =>
        (p, { type := Dart_CObject_Type.Dart_CObject_kString,
              as_string := json_object_to_json_string_ext
                (progressInfoToJsonObject t.text t.offset t.size) JSON_C_TO_STRING_PRETTY })) := by
  refine ⟨fun t => ⟨_, progressMonitor_ok t.text t.offset t.size c p w hc hcell hroom, rfl⟩,
    _, runTicks_ok c p hc ticks w hcell hroom, rfl, hcell, rfl⟩

theorem progressMonitor_reads_only_witness :
    (∀ t : Tick, ∃ w1, progressMonitor t.text t.offset t.size 1 (World.withCell 42 1) =
        .ok (MagickBooleanType.MagickTrue, w1) ∧ w1.heap = (World.withCell 42 1).heap) ∧
    ∃ w1, runTicks 1 World.twoTicks
        (World.withCell 42 1) = .ok w1 ∧ w1.heap = (World.withCell 42 1).heap ∧
      w1.heap.get 1 = some (Obj.intptr (some 42)) ∧
      w1.posted = (World.withCell 42 1).posted ++
        World.twoTicks.map (fun t =>
        (42, { type := Dart_CObject_Type.Dart_CObject_kString,
               as_string := json_object_to_json_string_ext
                 (progressInfoToJsonObject t.text t.offset t.size) JSON_C_TO_STRING_PRETTY })) :=
  progressMonitor_reads_only 1 42 (World.withCell 42 1) (by decide) (by decide) (by decide)
    World.twoTicks

end ImageMagickFfi
